import Mathlib

/-!
Shallow embedding of the shapefile codec core (header codec and the
polyline/polygon family of shape codecs) and proofs of its specification
properties.

The byte stream is modelled as a list of wire tokens: each token is one
primitive value read or written by the byteorder layer, tagged with its
kind and endianness.  Wire f64 values are modelled as integers, which is
faithful for this codec: the encode and decode paths only copy f64 values
and compare them (the NO_DATA sentinel test and the min and max folds of
the range computations), never perform rounding arithmetic on them.
-/

namespace Shp

/-- Model of a wire f64 value. -/
abbrev F := Int

/-- Modelled from the spec: the NO_DATA sentinel constant for missing
measure values (record module is not among the given sources; the spec
defines NO_DATA as a distinguished f64 at or below -1e38). -/
def NO_DATA : F := -(10 ^ 39)

/-- Modelled from the spec: a measure value counts as missing when it is
at or below -1e38. -/
def is_no_data (m : F) : Bool := m ≤ -(10 ^ 38)

/-- One primitive wire value, tagged with kind and endianness. -/
inductive Tok where
  | i32le (v : Int)
  | i32be (v : Int)
  | f64le (v : F)
  | byte (v : Int)
deriving DecidableEq, Repr

/-- The error taxonomy of the codec. -/
inductive Error where
  | ioError
  | invalidFileCode (code : Int)
  | invalidShapeType (v : Int)
  | invalidShapeRecordSize
  | malformedShape
  | orphanInnerRing
deriving DecidableEq, Repr

deriving instance DecidableEq for Except

/-- Rust cast of an i32 value to usize (wraps modulo 2^64). -/
def usize_of_i32 (v : Int) : Nat := (v % (2 ^ 64 : Int)).toNat

/-- Rust cast of a usize value to i32 (truncates modulo 2^32, signed). -/
def i32_of_usize (n : Nat) : Int :=
  if n % 2 ^ 32 < 2 ^ 31 then ((n % 2 ^ 32 : Nat) : Int)
  else ((n % 2 ^ 32 : Nat) : Int) - 2 ^ 32

/-! ## Primitive byte layer

Modelled from the spec, section 4.1: the io helpers of the record module
are not among the given sources.  A read consumes the next token and
fails with an io error when the stream is empty or the token kind does
not match the read performed. -/

def readI32LE : List Tok → Except Error (Int × List Tok)
  | Tok.i32le v :: ts => .ok (v, ts)
  | _ => .error .ioError

def readI32BE : List Tok → Except Error (Int × List Tok)
  | Tok.i32be v :: ts => .ok (v, ts)
  | _ => .error .ioError

def readF64 : List Tok → Except Error (F × List Tok)
  | Tok.f64le v :: ts => .ok (v, ts)
  | _ => .error .ioError

/-- read_exact into a fixed byte buffer, used for the header's skip area. -/
def readBytes : Nat → List Tok → Except Error (Unit × List Tok)
  | 0, ts => .ok ((), ts)
  | n + 1, Tok.byte _ :: ts => readBytes n ts
  | _ + 1, _ => .error .ioError

/-- read_range: two little-endian f64 values. -/
def read_range (ts : List Tok) : Except Error ((F × F) × List Tok) := do
  let (lo, ts) ← readF64 ts
  let (hi, ts) ← readF64 ts
  .ok ((lo, hi), ts)

def read_parts_go : Nat → List Tok → Except Error (List Int × List Tok)
  | 0, ts => .ok ([], ts)
  | n + 1, ts => do
      let (v, ts) ← readI32LE ts
      let (vs, ts) ← read_parts_go n ts
      .ok (v :: vs, ts)

/-- read_parts: num_parts little-endian i32 values (a negative count
iterates zero times, as a Rust range 0..n with negative n is empty). -/
def read_parts (n : Int) (ts : List Tok) : Except Error (List Int × List Tok) :=
  read_parts_go n.toNat ts

def write_parts : List Int → List Tok
  | [] => []
  | p :: ps => Tok.i32le p :: write_parts ps

def write_f64s : List F → List Tok
  | [] => []
  | v :: vs => Tok.f64le v :: write_f64s vs

def write_range (r : F × F) : List Tok := [Tok.f64le r.1, Tok.f64le r.2]

/-- Serialization of a sequence of (x, y) coordinate pairs. -/
def write_xys : List (F × F) → List Tok
  | [] => []
  | c :: cs => Tok.f64le c.1 :: Tok.f64le c.2 :: write_xys cs

/-! ## Geometric value types -/

structure Point where
  x : F
  y : F
deriving DecidableEq, Repr

structure PointM where
  x : F
  y : F
  m : F
deriving DecidableEq, Repr

structure PointZ where
  x : F
  y : F
  z : F
  m : F
deriving DecidableEq, Repr

/-- Access to the 2-D projection of a point type. -/
class HasXY (P : Type) where
  getx : P → F
  gety : P → F

instance : HasXY Point := ⟨Point.x, Point.y⟩

instance : HasXY PointM := ⟨PointM.x, PointM.y⟩

instance : HasXY PointZ := ⟨PointZ.x, PointZ.y⟩

structure BBox where
  xmin : F
  ymin : F
  xmax : F
  ymax : F
deriving DecidableEq, Repr

/-- Modelled from the spec: the 2-D bounding box of a point sequence;
for an empty sequence all four values are 0 (record module is not among
the given sources). -/
def BBox.from_points {P : Type} [HasXY P] : List P → BBox
  | [] => ⟨0, 0, 0, 0⟩
  | p :: ps =>
      ps.foldl
        (fun b q =>
          ⟨min b.xmin (HasXY.getx q), min b.ymin (HasXY.gety q),
           max b.xmax (HasXY.getx q), max b.ymax (HasXY.gety q)⟩)
        ⟨HasXY.getx p, HasXY.gety p, HasXY.getx p, HasXY.gety p⟩

/-- Modelled from the spec: the bbox wire form, four little-endian f64
values xmin, ymin, xmax, ymax. -/
def BBox.read_from (ts : List Tok) : Except Error (BBox × List Tok) := do
  let (xmin, ts) ← readF64 ts
  let (ymin, ts) ← readF64 ts
  let (xmax, ts) ← readF64 ts
  let (ymax, ts) ← readF64 ts
  .ok (⟨xmin, ymin, xmax, ymax⟩, ts)

def BBox.write_to (b : BBox) : List Tok :=
  [Tok.f64le b.xmin, Tok.f64le b.ymin, Tok.f64le b.xmax, Tok.f64le b.ymax]

/-- Modelled from the spec: min and max of a list of wire f64 values,
(0, 0) for the empty list. -/
def range_of_vals : List F → F × F
  | [] => (0, 0)
  | v :: vs => (vs.foldl min v, vs.foldl max v)

/-- Modelled from the spec: z-range is (min z, max z) over all points. -/
def calc_z_range (pts : List PointZ) : F × F := range_of_vals (pts.map PointZ.z)

/-- Modelled from the spec: m-range is the range over points whose m is
not NO_DATA; when no point carries a measure the range is (0, 0). -/
def calc_m_range_vals (ms : List F) : F × F :=
  range_of_vals (ms.filter (fun m => ¬ is_no_data m))

def calc_m_range_m (pts : List PointM) : F × F := calc_m_range_vals (pts.map PointM.m)

def calc_m_range_z (pts : List PointZ) : F × F := calc_m_range_vals (pts.map PointZ.m)

/-! ## Multipart containers -/

structure GenericPolyline (P : Type) where
  bbox : BBox
  points : List P
  parts : List Int
deriving DecidableEq, Repr

abbrev Polyline := GenericPolyline Point

abbrev PolylineM := GenericPolyline PointM

abbrev PolylineZ := GenericPolyline PointZ

structure GenericPolygon (P : Type) where
  bbox : BBox
  points : List P
  parts : List Int
deriving DecidableEq, Repr

abbrev Polygon := GenericPolygon Point

abbrev PolygonM := GenericPolygon PointM

abbrev PolygonZ := GenericPolygon PointZ

def GenericPolyline.new {P : Type} [HasXY P] (points : List P) (parts : List Int) :
    GenericPolyline P :=
  ⟨BBox.from_points points, points, parts⟩

def polygonOfPolyline {P : Type} (p : GenericPolyline P) : GenericPolygon P :=
  ⟨p.bbox, p.points, p.parts⟩

def polylineOfPolygon {P : Type} (p : GenericPolygon P) : GenericPolyline P :=
  ⟨p.bbox, p.points, p.parts⟩

def GenericPolygon.new {P : Type} [HasXY P] (points : List P) (parts : List Int) :
    GenericPolygon P :=
  polygonOfPolyline (GenericPolyline.new points parts)

/-- Whether the list is strictly increasing. -/
def chainIncr : List Int → Bool
  | [] => true
  | [_] => true
  | a :: b :: rest => (a < b : Bool) && chainIncr (b :: rest)

/-- Modelled from the spec: the parts array invariant — non-empty, first
entry 0, strictly increasing, all entries inside [0, number of points)
(record module is not among the given sources). -/
def is_parts_array_valid (parts : List Int) (num_points : Nat) : Bool :=
  (!parts.isEmpty) && parts.head? == some 0 && chainIncr parts &&
    parts.all (fun p => 0 ≤ p && p < (num_points : Int))

/-! ## Record size arithmetic (from the source, usize arithmetic wraps
modulo 2^64 as in a release build) -/

def Polyline.size_of_record (num_points num_parts : Int) : Nat :=
  (4 * 8 + 4 + 4 + 4 * usize_of_i32 num_parts + 16 * usize_of_i32 num_points) % 2 ^ 64

def PolylineM.size_of_record (num_points num_parts : Int) (is_m_used : Bool) : Nat :=
  (Polyline.size_of_record num_points num_parts +
    (if is_m_used then 2 * 8 + usize_of_i32 num_points * 8 else 0)) % 2 ^ 64

def PolylineZ.size_of_record (num_points num_parts : Int) (is_m_used : Bool) : Nat :=
  (Polyline.size_of_record num_points num_parts +
    2 * 8 + usize_of_i32 num_points * 8 +
    (if is_m_used then 2 * 8 + usize_of_i32 num_points * 8 else 0)) % 2 ^ 64

/-! ## Coordinate array reads (modelled from the spec, section 4.1):
read_xy_in_vec_of reads pairs of (x, y) and constructs points with the
other components defaulted (z to 0, m to NO_DATA); read_zs_into and
read_ms_into overwrite the z and m fields of existing points. -/

def read_xy_go_p : Nat → List Tok → Except Error (List Point × List Tok)
  | 0, ts => .ok ([], ts)
  | n + 1, ts => do
      let (x, ts) ← readF64 ts
      let (y, ts) ← readF64 ts
      let (ps, ts) ← read_xy_go_p n ts
      .ok (⟨x, y⟩ :: ps, ts)

def read_xy_go_m : Nat → List Tok → Except Error (List PointM × List Tok)
  | 0, ts => .ok ([], ts)
  | n + 1, ts => do
      let (x, ts) ← readF64 ts
      let (y, ts) ← readF64 ts
      let (ps, ts) ← read_xy_go_m n ts
      .ok (⟨x, y, NO_DATA⟩ :: ps, ts)

def read_xy_go_z : Nat → List Tok → Except Error (List PointZ × List Tok)
  | 0, ts => .ok ([], ts)
  | n + 1, ts => do
      let (x, ts) ← readF64 ts
      let (y, ts) ← readF64 ts
      let (ps, ts) ← read_xy_go_z n ts
      .ok (⟨x, y, 0, NO_DATA⟩ :: ps, ts)

def read_ms_into_m : List PointM → List Tok → Except Error (List PointM × List Tok)
  | [], ts => .ok ([], ts)
  | p :: ps, ts => do
      let (m, ts) ← readF64 ts
      let (ps', ts) ← read_ms_into_m ps ts
      .ok ({ p with m := m } :: ps', ts)

def read_ms_into_z : List PointZ → List Tok → Except Error (List PointZ × List Tok)
  | [], ts => .ok ([], ts)
  | p :: ps, ts => do
      let (m, ts) ← readF64 ts
      let (ps', ts) ← read_ms_into_z ps ts
      .ok ({ p with m := m } :: ps', ts)

def read_zs_into : List PointZ → List Tok → Except Error (List PointZ × List Tok)
  | [], ts => .ok ([], ts)
  | p :: ps, ts => do
      let (z, ts) ← readF64 ts
      let (ps', ts) ← read_zs_into ps ts
      .ok ({ p with z := z } :: ps', ts)

/-- Serialization of the 2-D projection of a point sequence (the
write_points io helper). -/
def write_points_p : List Point → List Tok
  | [] => []
  | p :: ps => Tok.f64le p.x :: Tok.f64le p.y :: write_points_p ps

def write_points_m : List PointM → List Tok
  | [] => []
  | p :: ps => Tok.f64le p.x :: Tok.f64le p.y :: write_points_m ps

def write_points_z : List PointZ → List Tok
  | [] => []
  | p :: ps => Tok.f64le p.x :: Tok.f64le p.y :: write_points_z ps

def write_ms_m (pts : List PointM) : List Tok := write_f64s (pts.map PointM.m)

def write_ms_z (pts : List PointZ) : List Tok := write_f64s (pts.map PointZ.m)

def write_zs (pts : List PointZ) : List Tok := write_f64s (pts.map PointZ.z)

/-! ## Shape decoders (from src/record/poly.rs) -/

/-- Polyline::read_shape_content: bbox, counts, exact size check, then
parts and points. -/
def Polyline.read_shape_content (record_size : Int) (ts : List Tok) :
    Except Error (Polyline × List Tok) := do
  let (bbox, ts) ← BBox.read_from ts
  let (num_parts, ts) ← readI32LE ts
  let (num_points, ts) ← readI32LE ts
  if record_size ≠ i32_of_usize (Polyline.size_of_record num_points num_parts) then
    .error .invalidShapeRecordSize
  else do
    let (parts, ts) ← read_parts num_parts ts
    let (points, ts) ← read_xy_go_p num_points.toNat ts
    .ok (⟨bbox, points, parts⟩, ts)

/-- PolylineM::read_shape_content: bbox, counts, parts, then the size
check against the with-M and without-M expected sizes, then points and
the optional trailing M block. -/
def PolylineM.read_shape_content (record_size : Int) (ts : List Tok) :
    Except Error (PolylineM × List Tok) := do
  let (bbox, ts) ← BBox.read_from ts
  let (num_parts, ts) ← readI32LE ts
  let (num_points, ts) ← readI32LE ts
  let (parts, ts) ← read_parts num_parts ts
  let record_size_with_m := i32_of_usize (PolylineM.size_of_record num_points num_parts true)
  let record_size_without_m := i32_of_usize (PolylineM.size_of_record num_points num_parts false)
  if record_size ≠ record_size_with_m ∧ record_size ≠ record_size_without_m then
    .error .invalidShapeRecordSize
  else do
    let is_m_used := record_size = record_size_with_m
    let (points, ts) ← read_xy_go_m num_points.toNat ts
    if is_m_used then do
      let (_m_range, ts) ← read_range ts
      let (points, ts) ← read_ms_into_m points ts
      .ok (⟨bbox, points, parts⟩, ts)
    else
      .ok (⟨bbox, points, parts⟩, ts)

/-- PolylineZ::read_shape_content: bbox, counts, the size check, then
parts, points, the mandatory Z block and the optional trailing M block. -/
def PolylineZ.read_shape_content (record_size : Int) (ts : List Tok) :
    Except Error (PolylineZ × List Tok) := do
  let (bbox, ts) ← BBox.read_from ts
  let (num_parts, ts) ← readI32LE ts
  let (num_points, ts) ← readI32LE ts
  let record_size_with_m := i32_of_usize (PolylineZ.size_of_record num_points num_parts true)
  let record_size_without_m := i32_of_usize (PolylineZ.size_of_record num_points num_parts false)
  if record_size ≠ record_size_with_m ∧ record_size ≠ record_size_without_m then
    .error .invalidShapeRecordSize
  else do
    let is_m_used := record_size = record_size_with_m
    let (parts, ts) ← read_parts num_parts ts
    let (points, ts) ← read_xy_go_z num_points.toNat ts
    let (_z_range, ts) ← read_range ts
    let (points, ts) ← read_zs_into points ts
    if is_m_used then do
      let (_m_range, ts) ← read_range ts
      let (points, ts) ← read_ms_into_z points ts
      .ok (⟨bbox, points, parts⟩, ts)
    else
      .ok (⟨bbox, points, parts⟩, ts)

def Polygon.read_shape_content (record_size : Int) (ts : List Tok) :
    Except Error (Polygon × List Tok) := do
  let (poly, ts) ← Polyline.read_shape_content record_size ts
  .ok (polygonOfPolyline poly, ts)

def PolygonM.read_shape_content (record_size : Int) (ts : List Tok) :
    Except Error (PolygonM × List Tok) := do
  let (poly, ts) ← PolylineM.read_shape_content record_size ts
  .ok (polygonOfPolyline poly, ts)

def PolygonZ.read_shape_content (record_size : Int) (ts : List Tok) :
    Except Error (PolygonZ × List Tok) := do
  let (poly, ts) ← PolylineZ.read_shape_content record_size ts
  .ok (polygonOfPolyline poly, ts)

/-! ## Shape encoders (from src/record/poly.rs) -/

def Polyline.size_in_bytes (s : Polyline) : Nat :=
  (4 * 8 + 4 + 4 + 4 * s.parts.length + 2 * 8 * s.points.length) % 2 ^ 64

def PolylineM.size_in_bytes (s : PolylineM) : Nat :=
  (8 * 4 + 4 + 4 + 4 * s.parts.length + 3 * 8 * s.points.length + 2 * 8) % 2 ^ 64

def PolylineZ.size_in_bytes (s : PolylineZ) : Nat :=
  (8 * 4 + 4 + 4 + 4 * s.parts.length + 4 * 8 * s.points.length + 2 * 8 + 2 * 8) % 2 ^ 64

/-- Polyline::write_to: validity check first, then bbox (the stored
field), counts, parts and points. -/
def Polyline.write_to (s : Polyline) : Except Error (List Tok) :=
  if ¬ is_parts_array_valid s.parts s.points.length then .error .malformedShape
  else
    .ok (s.bbox.write_to ++
      [Tok.i32le (i32_of_usize s.parts.length), Tok.i32le (i32_of_usize s.points.length)] ++
      write_parts s.parts ++ write_points_p s.points)

/-- PolylineM::write_to: as Polyline, then the recomputed m-range and
the m values (the M block is always emitted). -/
def PolylineM.write_to (s : PolylineM) : Except Error (List Tok) :=
  if ¬ is_parts_array_valid s.parts s.points.length then .error .malformedShape
  else
    .ok (s.bbox.write_to ++
      [Tok.i32le (i32_of_usize s.parts.length), Tok.i32le (i32_of_usize s.points.length)] ++
      write_parts s.parts ++ write_points_m s.points ++
      write_range (calc_m_range_m s.points) ++ write_ms_m s.points)

/-- PolylineZ::write_to: as Polyline, then the recomputed z-range and z
values, then the recomputed m-range and m values. -/
def PolylineZ.write_to (s : PolylineZ) : Except Error (List Tok) :=
  if ¬ is_parts_array_valid s.parts s.points.length then .error .malformedShape
  else
    .ok (s.bbox.write_to ++
      [Tok.i32le (i32_of_usize s.parts.length), Tok.i32le (i32_of_usize s.points.length)] ++
      write_parts s.parts ++ write_points_z s.points ++
      write_range (calc_z_range s.points) ++ write_zs s.points ++
      write_range (calc_m_range_z s.points) ++ write_ms_z s.points)

def Polygon.size_in_bytes (s : Polygon) : Nat :=
  (8 * 4 + 4 + 4 + 4 * s.parts.length + 2 * 8 * s.points.length) % 2 ^ 64

def PolygonM.size_in_bytes (s : PolygonM) : Nat :=
  (8 * 4 + 4 + 4 + 4 * s.parts.length + 3 * 8 * s.points.length + 2 * 8) % 2 ^ 64

def PolygonZ.size_in_bytes (s : PolygonZ) : Nat :=
  (8 * 4 + 4 + 4 + 4 * s.parts.length + 4 * 8 * s.points.length + 2 * 8 + 2 * 8) % 2 ^ 64

def Polygon.write_to (s : Polygon) : Except Error (List Tok) :=
  Polyline.write_to (polylineOfPolygon s)

def PolygonM.write_to (s : PolygonM) : Except Error (List Tok) :=
  PolylineM.write_to (polylineOfPolygon s)

def PolygonZ.write_to (s : PolygonZ) : Except Error (List Tok) :=
  PolylineZ.write_to (polylineOfPolygon s)

/-! ## Shape-type registry

Modelled from the spec, section 3 and 4.3: the registry module is not
among the given sources; the spec fixes the closed enumeration and its
wire values, and decoding an unknown value fails. -/

inductive ShapeType where
  | nullShape
  | point
  | polyline
  | polygon
  | multipoint
  | pointZ
  | polylineZ
  | polygonZ
  | multipointZ
  | pointM
  | polylineM
  | polygonM
  | multipointM
deriving DecidableEq, Repr

def ShapeType.toI32 : ShapeType → Int
  | .nullShape => 0
  | .point => 1
  | .polyline => 3
  | .polygon => 5
  | .multipoint => 8
  | .pointZ => 11
  | .polylineZ => 13
  | .polygonZ => 15
  | .multipointZ => 18
  | .pointM => 21
  | .polylineM => 23
  | .polygonM => 25
  | .multipointM => 28

def ShapeType.fromI32 (v : Int) : Option ShapeType :=
  if v = 0 then some .nullShape
  else if v = 1 then some .point
  else if v = 3 then some .polyline
  else if v = 5 then some .polygon
  else if v = 8 then some .multipoint
  else if v = 11 then some .pointZ
  else if v = 13 then some .polylineZ
  else if v = 15 then some .polygonZ
  else if v = 18 then some .multipointZ
  else if v = 21 then some .pointM
  else if v = 23 then some .polylineM
  else if v = 25 then some .polygonM
  else if v = 28 then some .multipointM
  else none

/-- Modelled from the spec: the registry reads a little-endian i32 and
rejects unknown values with the invalid-shape-type error. -/
def ShapeType.read_from (ts : List Tok) : Except Error (ShapeType × List Tok) := do
  let (v, ts) ← readI32LE ts
  match ShapeType.fromI32 v with
  | some st => .ok (st, ts)
  | none => .error (.invalidShapeType v)

/-! ## Header codec (from src/header.rs) -/

def FILE_CODE : Int := 9994

def SIZE_OF_SKIP : Nat := 4 * 5

structure Header where
  file_length : Int
  point_min : F × F × F
  point_max : F × F × F
  m_range : F × F
  shape_type : ShapeType
  version : Int
deriving DecidableEq, Repr

def Header.default : Header :=
  { file_length := 100 / 2
    point_min := (0, 0, 0)
    point_max := (0, 0, 0)
    m_range := (0, 0)
    shape_type := .nullShape
    version := 1000 }

/-- Header::read_from, field for field in the order of the source. -/
def Header.read_from (ts : List Tok) : Except Error (Header × List Tok) := do
  let (file_code, ts) ← readI32BE ts
  if file_code ≠ FILE_CODE then
    .error (.invalidFileCode file_code)
  else do
    let (_, ts) ← readBytes SIZE_OF_SKIP ts
    let (file_length_16_bit, ts) ← readI32BE ts
    let (version, ts) ← readI32LE ts
    let (shape_type, ts) ← ShapeType.read_from ts
    let (xmin, ts) ← readF64 ts
    let (ymin, ts) ← readF64 ts
    let (xmax, ts) ← readF64 ts
    let (ymax, ts) ← readF64 ts
    let (zmin, ts) ← readF64 ts
    let (zmax, ts) ← readF64 ts
    let (mmin, ts) ← readF64 ts
    let (mmax, ts) ← readF64 ts
    .ok ({ file_length := file_length_16_bit
           point_min := (xmin, ymin, zmin)
           point_max := (xmax, ymax, zmax)
           m_range := (mmin, mmax)
           shape_type := shape_type
           version := version }, ts)

/-- Header::write_to, field for field in the order of the source. -/
def Header.write_to (h : Header) : List Tok :=
  Tok.i32be FILE_CODE ::
    (List.replicate SIZE_OF_SKIP (Tok.byte 0) ++
      [Tok.i32be h.file_length, Tok.i32le h.version, Tok.i32le h.shape_type.toI32,
       Tok.f64le h.point_min.1, Tok.f64le h.point_min.2.1,
       Tok.f64le h.point_max.1, Tok.f64le h.point_max.2.1,
       Tok.f64le h.point_min.2.2, Tok.f64le h.point_max.2.2,
       Tok.f64le h.m_range.1, Tok.f64le h.m_range.2])

/-! ## Conversion from an external simple polygon with holes
(from src/record/poly.rs, the instance converting a geo polygon into a
shapefile polygon, instantiated at the plain point type). -/

/-- Modelled from the spec: the signed-area orientation test of the
record module (not among the given sources); a ring is an outer ring
when the sum of (x2 - x1) * (y2 + y1) over consecutive vertices is
non-negative. -/
def ring_area_sum : List Point → Int
  | p :: q :: rest => (q.x - p.x) * (q.y + p.y) + ring_area_sum (q :: rest)
  | _ => 0

def is_outer_ring (pts : List Point) : Bool := decide (0 ≤ ring_area_sum pts)

def pointOfCoord (c : F × F) : Point := ⟨c.1, c.2⟩

/-- One step of the interior-ring loop of the conversion: the part index
is pushed before the ring's points are appended, with value one less
than the current length of the accumulated point list. -/
def polygon_from_geo_step (st : List Point × List Int) (inner_ls : List (F × F)) :
    List Point × List Int :=
  let parts' := st.2 ++ [i32_of_usize (st.1.length - 1)]
  let inner0 := inner_ls.map pointOfCoord
  let inner := if is_outer_ring inner0 then inner0.reverse else inner0
  (st.1 ++ inner, parts')

/-- The conversion from a geo polygon (exterior ring plus interior
rings, given as coordinate lists) to a shapefile polygon. -/
def polygon_from_geo (exterior : List (F × F)) (interiors : List (List (F × F))) :
    Polygon :=
  if exterior.length = 0 then GenericPolygon.new [] []
  else
    let outer0 := exterior.map pointOfCoord
    let outer := if ¬ is_outer_ring outer0 then outer0.reverse else outer0
    let st := interiors.foldl polygon_from_geo_step (outer, [(0 : Int)])
    GenericPolygon.new st.1 st.2

/-- Expected tail of the parts array produced by the geo-polygon
conversion: for each interior ring the index pushed is one less than the
number of points accumulated so far. -/
def geo_parts_tail (acc : Nat) : List (List (F × F)) → List Int
  | [] => []
  | ring :: rest => i32_of_usize (acc - 1) :: geo_parts_tail (acc + ring.length) rest

/-- Modelled from the spec's words, for comparison with the source: the
part index of an interior ring as the spec's invariants would require,
namely the current number of accumulated points with no decrement. -/
def geo_parts_tail_spec (acc : Nat) : List (List (F × F)) → List Int
  | [] => []
  | ring :: rest => i32_of_usize acc :: geo_parts_tail_spec (acc + ring.length) rest

/-- Expected point list of a Z decode: coordinates zipped with z and m
values. -/
def mk_points_z : List (F × F) → List F → List F → List PointZ
  | c :: cs, z :: zs, m :: ms => ⟨c.1, c.2, z, m⟩ :: mk_points_z cs zs ms
  | _, _, _ => []

/-- Expected point list of a Z decode without a trailing M block. -/
def mk_points_z_nom : List (F × F) → List F → List PointZ
  | c :: cs, z :: zs => ⟨c.1, c.2, z, NO_DATA⟩ :: mk_points_z_nom cs zs
  | _, _ => []

/-- Expected point list of an M decode with a trailing M block. -/
def mk_points_m : List (F × F) → List F → List PointM
  | c :: cs, m :: ms => ⟨c.1, c.2, m⟩ :: mk_points_m cs ms
  | _, _ => []

/-! ## Helper lemmas: monadic reductions and primitive reader laws -/

@[simp] theorem except_bind_ok {α β : Type} (a : α) (f : α → Except Error β) :
    (Except.ok a >>= f) = f a := rfl

@[simp] theorem except_bind_err {α β : Type} (e : Error) (f : α → Except Error β) :
    ((Except.error e : Except Error α) >>= f) = .error e := rfl

@[simp] theorem readI32LE_cons (v : Int) (ts : List Tok) :
    readI32LE (Tok.i32le v :: ts) = .ok (v, ts) := rfl

@[simp] theorem readI32BE_cons (v : Int) (ts : List Tok) :
    readI32BE (Tok.i32be v :: ts) = .ok (v, ts) := rfl

@[simp] theorem readF64_cons (v : F) (ts : List Tok) :
    readF64 (Tok.f64le v :: ts) = .ok (v, ts) := rfl

theorem readBytes_replicate (n : Nat) (ts : List Tok) :
    readBytes n (List.replicate n (Tok.byte 0) ++ ts) = .ok ((), ts) := by
  induction n with
  | zero => rfl
  | succ k ih => simpa [List.replicate_succ, readBytes] using ih

theorem read_parts_go_write (ps : List Int) (rest : List Tok) :
    read_parts_go ps.length (write_parts ps ++ rest) = .ok (ps, rest) := by
  induction ps with
  | nil => rfl
  | cons p ps ih => simp [write_parts, read_parts_go, ih]

theorem read_xy_go_p_write (cs : List (F × F)) (rest : List Tok) :
    read_xy_go_p cs.length (write_xys cs ++ rest) =
      .ok (cs.map (fun c => Point.mk c.1 c.2), rest) := by
  induction cs with
  | nil => rfl
  | cons c cs ih => simp [write_xys, read_xy_go_p, ih]

theorem read_xy_go_m_write (cs : List (F × F)) (rest : List Tok) :
    read_xy_go_m cs.length (write_xys cs ++ rest) =
      .ok (cs.map (fun c => PointM.mk c.1 c.2 NO_DATA), rest) := by
  induction cs with
  | nil => rfl
  | cons c cs ih => simp [write_xys, read_xy_go_m, ih]

theorem read_xy_go_z_write (cs : List (F × F)) (rest : List Tok) :
    read_xy_go_z cs.length (write_xys cs ++ rest) =
      .ok (cs.map (fun c => PointZ.mk c.1 c.2 0 NO_DATA), rest) := by
  induction cs with
  | nil => rfl
  | cons c cs ih => simp [write_xys, read_xy_go_z, ih]

theorem write_f64s_cons (v : F) (vs : List F) :
    write_f64s (v :: vs) = Tok.f64le v :: write_f64s vs := rfl

theorem read_ms_into_m_write (pts : List PointM) (ms : List F) (rest : List Tok)
    (h : pts.length = ms.length) :
    read_ms_into_m pts (write_f64s ms ++ rest) =
      .ok (List.zipWith (fun p m => { p with m := m }) pts ms, rest) := by
  induction pts generalizing ms with
  | nil =>
      cases ms with
      | nil => rfl
      | cons m ms => simp at h
  | cons p pts ih =>
      cases ms with
      | nil => simp at h
      | cons m ms =>
          simp only [List.length_cons, Nat.succ.injEq] at h
          simp [write_f64s_cons, read_ms_into_m, ih ms h]

theorem read_ms_into_z_write (pts : List PointZ) (ms : List F) (rest : List Tok)
    (h : pts.length = ms.length) :
    read_ms_into_z pts (write_f64s ms ++ rest) =
      .ok (List.zipWith (fun p m => { p with m := m }) pts ms, rest) := by
  induction pts generalizing ms with
  | nil =>
      cases ms with
      | nil => rfl
      | cons m ms => simp at h
  | cons p pts ih =>
      cases ms with
      | nil => simp at h
      | cons m ms =>
          simp only [List.length_cons, Nat.succ.injEq] at h
          simp [write_f64s_cons, read_ms_into_z, ih ms h]

theorem read_zs_into_write (pts : List PointZ) (zs : List F) (rest : List Tok)
    (h : pts.length = zs.length) :
    read_zs_into pts (write_f64s zs ++ rest) =
      .ok (List.zipWith (fun p z => { p with z := z }) pts zs, rest) := by
  induction pts generalizing zs with
  | nil =>
      cases zs with
      | nil => rfl
      | cons z zs => simp at h
  | cons p pts ih =>
      cases zs with
      | nil => simp at h
      | cons z zs =>
          simp only [List.length_cons, Nat.succ.injEq] at h
          simp [write_f64s_cons, read_zs_into, ih zs h]

theorem bbox_read_write (b : BBox) (ts : List Tok) :
    BBox.read_from (b.write_to ++ ts) = .ok (b, ts) := by
  simp [BBox.write_to, BBox.read_from]

/-! ## Helper lemmas: size arithmetic in the non-overflowing regime -/

theorem usize_of_i32_coe (n : Nat) (h : n < 2 ^ 64) : usize_of_i32 (n : Int) = n := by
  unfold usize_of_i32
  omega

theorem i32_of_usize_small (n : Nat) (h : n < 2 ^ 31) : i32_of_usize n = (n : Int) := by
  unfold i32_of_usize
  rw [Nat.mod_eq_of_lt (by omega)]
  rw [if_pos h]

theorem size_of_record_p (npts np : Nat) (h1 : npts < 2 ^ 31) (h2 : np < 2 ^ 31) :
    Polyline.size_of_record (npts : Int) (np : Int) = 40 + 4 * np + 16 * npts := by
  unfold Polyline.size_of_record
  rw [usize_of_i32_coe np (by omega), usize_of_i32_coe npts (by omega)]
  omega

theorem size_of_record_m_true (npts np : Nat) (h1 : npts < 2 ^ 31) (h2 : np < 2 ^ 31) :
    PolylineM.size_of_record (npts : Int) (np : Int) true = 56 + 4 * np + 24 * npts := by
  unfold PolylineM.size_of_record
  rw [size_of_record_p npts np h1 h2, usize_of_i32_coe npts (by omega)]
  simp
  omega

theorem size_of_record_m_false (npts np : Nat) (h1 : npts < 2 ^ 31) (h2 : np < 2 ^ 31) :
    PolylineM.size_of_record (npts : Int) (np : Int) false = 40 + 4 * np + 16 * npts := by
  unfold PolylineM.size_of_record
  rw [size_of_record_p npts np h1 h2]
  simp
  omega

theorem size_of_record_z_true (npts np : Nat) (h1 : npts < 2 ^ 31) (h2 : np < 2 ^ 31) :
    PolylineZ.size_of_record (npts : Int) (np : Int) true = 72 + 4 * np + 32 * npts := by
  unfold PolylineZ.size_of_record
  rw [size_of_record_p npts np h1 h2, usize_of_i32_coe npts (by omega)]
  simp
  omega

theorem size_of_record_z_false (npts np : Nat) (h1 : npts < 2 ^ 31) (h2 : np < 2 ^ 31) :
    PolylineZ.size_of_record (npts : Int) (np : Int) false = 56 + 4 * np + 24 * npts := by
  unfold PolylineZ.size_of_record
  rw [size_of_record_p npts np h1 h2, usize_of_i32_coe npts (by omega)]
  simp
  omega

/-! ## Error-path lemmas: mismatched record sizes -/

/-- The plain decoder rejects any record size other than the exact
expected size for the parsed counts, for arbitrary wire counts. -/
theorem polyline_read_bad_size (b : BBox) (np npts : Int) (rest : List Tok) (rs : Int)
    (h : rs ≠ i32_of_usize (Polyline.size_of_record npts np)) :
    Polyline.read_shape_content rs
      (b.write_to ++ Tok.i32le np :: Tok.i32le npts :: rest) =
      .error .invalidShapeRecordSize := by
  unfold Polyline.read_shape_content
  rw [bbox_read_write]
  simp only [except_bind_ok, readI32LE_cons]
  rw [if_pos h]

/-- The M decoder, after parsing the header fields and the parts array,
rejects any record size matching neither the with-M nor the without-M
expected size. -/
theorem polyline_m_read_bad_size (b : BBox) (np npts : Int) (parts : List Int)
    (rest : List Tok) (rs : Int) (hlen : parts.length = np.toNat)
    (h1 : rs ≠ i32_of_usize (PolylineM.size_of_record npts np true))
    (h2 : rs ≠ i32_of_usize (PolylineM.size_of_record npts np false)) :
    PolylineM.read_shape_content rs
      (b.write_to ++ Tok.i32le np :: Tok.i32le npts :: (write_parts parts ++ rest)) =
      .error .invalidShapeRecordSize := by
  unfold PolylineM.read_shape_content
  rw [bbox_read_write]
  simp only [except_bind_ok, readI32LE_cons]
  simp only [read_parts, except_bind_ok]
  rw [← hlen, read_parts_go_write]
  simp only [except_bind_ok]
  rw [if_pos ⟨h1, h2⟩]

/-- The Z decoder checks the record size right after the counts, before
the parts array, and rejects any size matching neither expected size. -/
theorem polyline_z_read_bad_size (b : BBox) (np npts : Int) (rest : List Tok) (rs : Int)
    (h1 : rs ≠ i32_of_usize (PolylineZ.size_of_record npts np true))
    (h2 : rs ≠ i32_of_usize (PolylineZ.size_of_record npts np false)) :
    PolylineZ.read_shape_content rs
      (b.write_to ++ Tok.i32le np :: Tok.i32le npts :: rest) =
      .error .invalidShapeRecordSize := by
  unfold PolylineZ.read_shape_content
  rw [bbox_read_write]
  simp only [except_bind_ok, readI32LE_cons]
  rw [if_pos ⟨h1, h2⟩]

/-! ## Decoder characterization lemmas

Each lemma describes the decoder's behaviour on a stream assembled from
its components, with counts small enough that none of the usize casts
wraps (the regime in which a debug and a release Rust build agree). -/

/-- The plain polyline decoder on a well-sized stream: succeeds, returns
the wire bbox, the wire parts unchanged and unvalidated, points with
wire coordinates, and consumes exactly the record. -/
theorem polyline_read_ok (b : BBox) (parts : List Int) (cs : List (F × F)) (rest : List Tok)
    (hp : parts.length < 2 ^ 20) (hc : cs.length < 2 ^ 20) :
    Polyline.read_shape_content ((40 + 4 * parts.length + 16 * cs.length : Nat) : Int)
      (b.write_to ++
        [Tok.i32le (parts.length : Int), Tok.i32le (cs.length : Int)] ++
        write_parts parts ++ write_xys cs ++ rest) =
      .ok (⟨b, cs.map (fun c => Point.mk c.1 c.2), parts⟩, rest) := by
  unfold Polyline.read_shape_content
  rw [List.append_assoc, List.append_assoc, List.append_assoc]
  rw [bbox_read_write]
  simp only [except_bind_ok, List.cons_append, List.nil_append, readI32LE_cons]
  rw [size_of_record_p cs.length parts.length (by omega) (by omega)]
  rw [i32_of_usize_small _ (by omega)]
  rw [if_neg (by simp)]
  simp only [read_parts, Int.toNat_natCast, except_bind_ok]
  rw [read_parts_go_write]
  simp only [except_bind_ok]
  rw [read_xy_go_p_write]
  simp only [except_bind_ok]

theorem read_range_write (r : F × F) (ts : List Tok) :
    read_range (write_range r ++ ts) = .ok (r, ts) := by
  simp [write_range, read_range]

theorem zip_set_m (cs : List (F × F)) (ms : List F) :
    List.zipWith (fun p m => { p with m := m })
      (cs.map fun c => PointM.mk c.1 c.2 NO_DATA) ms = mk_points_m cs ms := by
  induction cs generalizing ms with
  | nil => cases ms <;> rfl
  | cons c cs ih => cases ms with
    | nil => rfl
    | cons m ms => simp [mk_points_m, ih]

/-- The M polyline decoder on a stream whose record size announces the
M block: succeeds, reads the m-range (discarding it) and the m values,
and consumes exactly the record. -/
theorem polyline_m_read_with (b : BBox) (parts : List Int) (cs : List (F × F))
    (mr : F × F) (ms : List F) (rest : List Tok)
    (hp : parts.length < 2 ^ 20) (hc : cs.length < 2 ^ 20) (hm : ms.length = cs.length) :
    PolylineM.read_shape_content ((56 + 4 * parts.length + 24 * cs.length : Nat) : Int)
      (b.write_to ++
        [Tok.i32le (parts.length : Int), Tok.i32le (cs.length : Int)] ++
        write_parts parts ++ write_xys cs ++ write_range mr ++ write_f64s ms ++ rest) =
      .ok (⟨b, mk_points_m cs ms, parts⟩, rest) := by
  unfold PolylineM.read_shape_content
  rw [List.append_assoc, List.append_assoc, List.append_assoc, List.append_assoc,
    List.append_assoc]
  rw [bbox_read_write]
  simp only [except_bind_ok, List.cons_append, List.nil_append, readI32LE_cons]
  simp only [read_parts, Int.toNat_natCast, except_bind_ok]
  rw [read_parts_go_write]
  simp only [except_bind_ok]
  rw [size_of_record_m_true cs.length parts.length (by omega) (by omega),
    size_of_record_m_false cs.length parts.length (by omega) (by omega)]
  rw [i32_of_usize_small _ (by omega), i32_of_usize_small _ (by omega)]
  rw [if_neg (fun h => h.1 rfl)]
  simp only [except_bind_ok]
  rw [read_xy_go_m_write]
  simp only [except_bind_ok]
  rw [read_range_write]
  simp only [except_bind_ok]
  rw [read_ms_into_m_write _ _ _ (by simp [hm])]
  simp only [except_bind_ok, zip_set_m]
  simp

theorem zip_set_z (cs : List (F × F)) (zs : List F) :
    List.zipWith (fun p z => { p with z := z })
      (cs.map fun c => PointZ.mk c.1 c.2 0 NO_DATA) zs = mk_points_z_nom cs zs := by
  induction cs generalizing zs with
  | nil => cases zs <;> rfl
  | cons c cs ih => cases zs with
    | nil => rfl
    | cons z zs => simp [mk_points_z_nom, ih]

theorem zip_set_zm (cs : List (F × F)) (zs ms : List F) :
    List.zipWith (fun p m => { p with m := m }) (mk_points_z_nom cs zs) ms =
      mk_points_z cs zs ms := by
  induction cs generalizing zs ms with
  | nil => cases zs <;> cases ms <;> rfl
  | cons c cs ih =>
      cases zs with
      | nil => cases ms <;> rfl
      | cons z zs => cases ms with
        | nil => rfl
        | cons m ms => simp [mk_points_z_nom, mk_points_z, ih]

theorem mk_points_z_nom_length (cs : List (F × F)) (zs : List F) (h : zs.length = cs.length) :
    (mk_points_z_nom cs zs).length = cs.length := by
  induction cs generalizing zs with
  | nil => cases zs <;> simp [mk_points_z_nom]
  | cons c cs ih =>
      cases zs with
      | nil => simp at h
      | cons z zs =>
          simp only [List.length_cons, Nat.succ.injEq] at h
          simp [mk_points_z_nom, ih zs h]

/-- The Z polyline decoder on a stream whose record size announces the
trailing M block: succeeds, reads the z-range and z values, then the
m-range (discarding both ranges) and m values, and consumes exactly the
record. -/
theorem polyline_z_read_with (b : BBox) (parts : List Int) (cs : List (F × F))
    (zr : F × F) (zs : List F) (mr : F × F) (ms : List F) (rest : List Tok)
    (hp : parts.length < 2 ^ 20) (hc : cs.length < 2 ^ 20)
    (hz : zs.length = cs.length) (hm : ms.length = cs.length) :
    PolylineZ.read_shape_content ((72 + 4 * parts.length + 32 * cs.length : Nat) : Int)
      (b.write_to ++
        [Tok.i32le (parts.length : Int), Tok.i32le (cs.length : Int)] ++
        write_parts parts ++ write_xys cs ++
        write_range zr ++ write_f64s zs ++ write_range mr ++ write_f64s ms ++ rest) =
      .ok (⟨b, mk_points_z cs zs ms, parts⟩, rest) := by
  unfold PolylineZ.read_shape_content
  rw [List.append_assoc, List.append_assoc, List.append_assoc, List.append_assoc,
    List.append_assoc, List.append_assoc, List.append_assoc]
  rw [bbox_read_write]
  simp only [except_bind_ok, List.cons_append, List.nil_append, readI32LE_cons]
  rw [size_of_record_z_true cs.length parts.length (by omega) (by omega),
    size_of_record_z_false cs.length parts.length (by omega) (by omega)]
  rw [i32_of_usize_small _ (by omega), i32_of_usize_small _ (by omega)]
  rw [if_neg (fun h => h.1 rfl)]
  simp only [read_parts, Int.toNat_natCast, except_bind_ok]
  rw [read_parts_go_write]
  simp only [except_bind_ok]
  rw [read_xy_go_z_write]
  simp only [except_bind_ok]
  rw [read_range_write]
  simp only [except_bind_ok]
  rw [read_zs_into_write _ _ _ (by simp [hz])]
  simp only [except_bind_ok, zip_set_z]
  rw [read_range_write]
  simp only [except_bind_ok]
  rw [read_ms_into_z_write _ _ _ (by rw [mk_points_z_nom_length cs zs hz, hm])]
  simp only [except_bind_ok, zip_set_zm]
  simp

/-- The Z polyline decoder on a stream whose record size announces no
trailing M block: succeeds, reads the z block, every decoded point
carries NO_DATA as its measure, and whatever follows the z values (here
an arbitrary tail) is left unread. -/
theorem polyline_z_read_without (b : BBox) (parts : List Int) (cs : List (F × F))
    (zr : F × F) (zs : List F) (rest : List Tok)
    (hp : parts.length < 2 ^ 20) (hc : cs.length < 2 ^ 20)
    (hz : zs.length = cs.length) :
    PolylineZ.read_shape_content ((56 + 4 * parts.length + 24 * cs.length : Nat) : Int)
      (b.write_to ++
        [Tok.i32le (parts.length : Int), Tok.i32le (cs.length : Int)] ++
        write_parts parts ++ write_xys cs ++
        write_range zr ++ write_f64s zs ++ rest) =
      .ok (⟨b, mk_points_z_nom cs zs, parts⟩, rest) := by
  unfold PolylineZ.read_shape_content
  rw [List.append_assoc, List.append_assoc, List.append_assoc, List.append_assoc,
    List.append_assoc]
  rw [bbox_read_write]
  simp only [except_bind_ok, List.cons_append, List.nil_append, readI32LE_cons]
  rw [size_of_record_z_true cs.length parts.length (by omega) (by omega),
    size_of_record_z_false cs.length parts.length (by omega) (by omega)]
  rw [i32_of_usize_small _ (by omega), i32_of_usize_small _ (by omega)]
  have hne : ((56 + 4 * parts.length + 24 * cs.length : Nat) : Int) ≠
      ((72 + 4 * parts.length + 32 * cs.length : Nat) : Int) := by
    push_cast
    omega
  rw [if_neg (fun h => h.2 rfl)]
  simp only [read_parts, Int.toNat_natCast, except_bind_ok]
  rw [read_parts_go_write]
  simp only [except_bind_ok]
  rw [read_xy_go_z_write]
  simp only [except_bind_ok]
  rw [read_range_write]
  simp only [except_bind_ok]
  rw [read_zs_into_write _ _ _ (by simp [hz])]
  simp only [except_bind_ok, zip_set_z]
  rw [if_neg hne]

/-- The M polyline decoder on a stream whose record size announces no
M block: succeeds, every decoded point carries NO_DATA as its measure,
and whatever follows the coordinates (here an arbitrary tail) is left
unread. -/
theorem polyline_m_read_without (b : BBox) (parts : List Int) (cs : List (F × F))
    (rest : List Tok)
    (hp : parts.length < 2 ^ 20) (hc : cs.length < 2 ^ 20) :
    PolylineM.read_shape_content ((40 + 4 * parts.length + 16 * cs.length : Nat) : Int)
      (b.write_to ++
        [Tok.i32le (parts.length : Int), Tok.i32le (cs.length : Int)] ++
        write_parts parts ++ write_xys cs ++ rest) =
      .ok (⟨b, cs.map (fun c => PointM.mk c.1 c.2 NO_DATA), parts⟩, rest) := by
  unfold PolylineM.read_shape_content
  rw [List.append_assoc, List.append_assoc, List.append_assoc]
  rw [bbox_read_write]
  simp only [except_bind_ok, List.cons_append, List.nil_append, readI32LE_cons]
  simp only [read_parts, Int.toNat_natCast, except_bind_ok]
  rw [read_parts_go_write]
  simp only [except_bind_ok]
  rw [size_of_record_m_true cs.length parts.length (by omega) (by omega),
    size_of_record_m_false cs.length parts.length (by omega) (by omega)]
  rw [i32_of_usize_small _ (by omega), i32_of_usize_small _ (by omega)]
  have hne : ((40 + 4 * parts.length + 16 * cs.length : Nat) : Int) ≠
      ((56 + 4 * parts.length + 24 * cs.length : Nat) : Int) := by
    push_cast
    omega
  rw [if_neg (fun h => h.2 rfl)]
  rw [read_xy_go_m_write]
  simp only [except_bind_ok]
  rw [if_neg hne]

/-! ## Writer characterizations and round-trip eta lemmas -/

theorem write_points_p_eq (pts : List Point) :
    write_points_p pts = write_xys (pts.map fun p => (p.x, p.y)) := by
  induction pts with
  | nil => rfl
  | cons p pts ih => simp [write_points_p, write_xys, ih]

theorem write_points_m_eq (pts : List PointM) :
    write_points_m pts = write_xys (pts.map fun p => (p.x, p.y)) := by
  induction pts with
  | nil => rfl
  | cons p pts ih => simp [write_points_m, write_xys, ih]

theorem write_points_z_eq (pts : List PointZ) :
    write_points_z pts = write_xys (pts.map fun p => (p.x, p.y)) := by
  induction pts with
  | nil => rfl
  | cons p pts ih => simp [write_points_z, write_xys, ih]

theorem map_mk_p (pts : List Point) :
    (pts.map fun p => ((p.x, p.y) : F × F)).map (fun c => Point.mk c.1 c.2) = pts := by
  induction pts with
  | nil => rfl
  | cons p pts ih => simp [ih]

theorem mk_points_m_eta (pts : List PointM) :
    mk_points_m (pts.map fun p => (p.x, p.y)) (pts.map PointM.m) = pts := by
  induction pts with
  | nil => rfl
  | cons p pts ih => simp [mk_points_m, ih]

theorem mk_points_z_eta (pts : List PointZ) :
    mk_points_z (pts.map fun p => (p.x, p.y)) (pts.map PointZ.z) (pts.map PointZ.m) = pts := by
  induction pts with
  | nil => rfl
  | cons p pts ih => simp [mk_points_z, ih]

theorem size_in_bytes_p (s : Polyline) (hp : s.parts.length < 2 ^ 20)
    (hc : s.points.length < 2 ^ 20) :
    s.size_in_bytes = 40 + 4 * s.parts.length + 16 * s.points.length := by
  unfold Polyline.size_in_bytes
  omega

theorem size_in_bytes_m (s : PolylineM) (hp : s.parts.length < 2 ^ 20)
    (hc : s.points.length < 2 ^ 20) :
    s.size_in_bytes = 56 + 4 * s.parts.length + 24 * s.points.length := by
  unfold PolylineM.size_in_bytes
  omega

theorem size_in_bytes_z (s : PolylineZ) (hp : s.parts.length < 2 ^ 20)
    (hc : s.points.length < 2 ^ 20) :
    s.size_in_bytes = 72 + 4 * s.parts.length + 32 * s.points.length := by
  unfold PolylineZ.size_in_bytes
  omega

theorem polyline_write_ok (s : Polyline)
    (hv : is_parts_array_valid s.parts s.points.length = true)
    (hp : s.parts.length < 2 ^ 20) (hc : s.points.length < 2 ^ 20) :
    Polyline.write_to s = .ok (s.bbox.write_to ++
      [Tok.i32le (s.parts.length : Int), Tok.i32le (s.points.length : Int)] ++
      write_parts s.parts ++ write_points_p s.points) := by
  unfold Polyline.write_to
  rw [if_neg (by simp [hv])]
  rw [i32_of_usize_small _ (by omega), i32_of_usize_small _ (by omega)]

theorem polyline_m_write_ok (s : PolylineM)
    (hv : is_parts_array_valid s.parts s.points.length = true)
    (hp : s.parts.length < 2 ^ 20) (hc : s.points.length < 2 ^ 20) :
    PolylineM.write_to s = .ok (s.bbox.write_to ++
      [Tok.i32le (s.parts.length : Int), Tok.i32le (s.points.length : Int)] ++
      write_parts s.parts ++ write_points_m s.points ++
      write_range (calc_m_range_m s.points) ++ write_f64s (s.points.map PointM.m)) := by
  unfold PolylineM.write_to
  rw [if_neg (by simp [hv])]
  rw [i32_of_usize_small _ (by omega), i32_of_usize_small _ (by omega)]
  rfl

theorem polyline_z_write_ok (s : PolylineZ)
    (hv : is_parts_array_valid s.parts s.points.length = true)
    (hp : s.parts.length < 2 ^ 20) (hc : s.points.length < 2 ^ 20) :
    PolylineZ.write_to s = .ok (s.bbox.write_to ++
      [Tok.i32le (s.parts.length : Int), Tok.i32le (s.points.length : Int)] ++
      write_parts s.parts ++ write_points_z s.points ++
      write_range (calc_z_range s.points) ++ write_f64s (s.points.map PointZ.z) ++
      write_range (calc_m_range_z s.points) ++ write_f64s (s.points.map PointZ.m)) := by
  unfold PolylineZ.write_to
  rw [if_neg (by simp [hv])]
  rw [i32_of_usize_small _ (by omega), i32_of_usize_small _ (by omega)]
  rfl

/-! ## Round-trip lemmas -/

theorem polyline_roundtrip (s : Polyline)
    (hv : is_parts_array_valid s.parts s.points.length = true)
    (hp : s.parts.length < 2 ^ 20) (hc : s.points.length < 2 ^ 20) :
    (Polyline.write_to s >>=
      Polyline.read_shape_content ((s.size_in_bytes : Nat) : Int)) = .ok (s, []) := by
  rw [polyline_write_ok s hv hp hc]
  simp only [except_bind_ok]
  rw [write_points_p_eq, size_in_bytes_p s hp hc]
  have h := polyline_read_ok s.bbox s.parts (s.points.map fun p => (p.x, p.y)) []
    hp (by simpa using hc)
  rw [List.length_map, List.append_nil, map_mk_p] at h
  exact h

theorem polyline_m_roundtrip (s : PolylineM)
    (hv : is_parts_array_valid s.parts s.points.length = true)
    (hp : s.parts.length < 2 ^ 20) (hc : s.points.length < 2 ^ 20) :
    (PolylineM.write_to s >>=
      PolylineM.read_shape_content ((s.size_in_bytes : Nat) : Int)) = .ok (s, []) := by
  rw [polyline_m_write_ok s hv hp hc]
  simp only [except_bind_ok]
  rw [write_points_m_eq, size_in_bytes_m s hp hc]
  have h := polyline_m_read_with s.bbox s.parts (s.points.map fun p => (p.x, p.y))
    (calc_m_range_m s.points) (s.points.map PointM.m) []
    hp (by simpa using hc) (by simp)
  rw [List.length_map, List.append_nil, mk_points_m_eta] at h
  exact h

theorem polyline_z_roundtrip (s : PolylineZ)
    (hv : is_parts_array_valid s.parts s.points.length = true)
    (hp : s.parts.length < 2 ^ 20) (hc : s.points.length < 2 ^ 20) :
    (PolylineZ.write_to s >>=
      PolylineZ.read_shape_content ((s.size_in_bytes : Nat) : Int)) = .ok (s, []) := by
  rw [polyline_z_write_ok s hv hp hc]
  simp only [except_bind_ok]
  rw [write_points_z_eq, size_in_bytes_z s hp hc]
  have h := polyline_z_read_with s.bbox s.parts (s.points.map fun p => (p.x, p.y))
    (calc_z_range s.points) (s.points.map PointZ.z)
    (calc_m_range_z s.points) (s.points.map PointZ.m) []
    hp (by simpa using hc) (by simp) (by simp)
  rw [List.length_map, List.append_nil, mk_points_z_eta] at h
  exact h

theorem polygon_roundtrip (s : Polygon)
    (hv : is_parts_array_valid s.parts s.points.length = true)
    (hp : s.parts.length < 2 ^ 20) (hc : s.points.length < 2 ^ 20) :
    (Polygon.write_to s >>=
      Polygon.read_shape_content ((s.size_in_bytes : Nat) : Int)) = .ok (s, []) := by
  have h := polyline_roundtrip (polylineOfPolygon s) hv hp hc
  cases hw : Polyline.write_to (polylineOfPolygon s) with
  | error e => rw [hw] at h; simp at h
  | ok ts =>
      rw [hw] at h
      simp only [except_bind_ok] at h
      unfold Polygon.write_to
      rw [hw]
      simp only [except_bind_ok]
      unfold Polygon.read_shape_content
      have hsz : ((Polygon.size_in_bytes s : Nat) : Int) =
          ((Polyline.size_in_bytes (polylineOfPolygon s) : Nat) : Int) := rfl
      rw [hsz, h]
      rfl

theorem polygon_m_roundtrip (s : PolygonM)
    (hv : is_parts_array_valid s.parts s.points.length = true)
    (hp : s.parts.length < 2 ^ 20) (hc : s.points.length < 2 ^ 20) :
    (PolygonM.write_to s >>=
      PolygonM.read_shape_content ((s.size_in_bytes : Nat) : Int)) = .ok (s, []) := by
  have h := polyline_m_roundtrip (polylineOfPolygon s) hv hp hc
  cases hw : PolylineM.write_to (polylineOfPolygon s) with
  | error e => rw [hw] at h; simp at h
  | ok ts =>
      rw [hw] at h
      simp only [except_bind_ok] at h
      unfold PolygonM.write_to
      rw [hw]
      simp only [except_bind_ok]
      unfold PolygonM.read_shape_content
      have hsz : ((PolygonM.size_in_bytes s : Nat) : Int) =
          ((PolylineM.size_in_bytes (polylineOfPolygon s) : Nat) : Int) := rfl
      rw [hsz, h]
      rfl

theorem polygon_z_roundtrip (s : PolygonZ)
    (hv : is_parts_array_valid s.parts s.points.length = true)
    (hp : s.parts.length < 2 ^ 20) (hc : s.points.length < 2 ^ 20) :
    (PolygonZ.write_to s >>=
      PolygonZ.read_shape_content ((s.size_in_bytes : Nat) : Int)) = .ok (s, []) := by
  have h := polyline_z_roundtrip (polylineOfPolygon s) hv hp hc
  cases hw : PolylineZ.write_to (polylineOfPolygon s) with
  | error e => rw [hw] at h; simp at h
  | ok ts =>
      rw [hw] at h
      simp only [except_bind_ok] at h
      unfold PolygonZ.write_to
      rw [hw]
      simp only [except_bind_ok]
      unfold PolygonZ.read_shape_content
      have hsz : ((PolygonZ.size_in_bytes s : Nat) : Int) =
          ((PolylineZ.size_in_bytes (polylineOfPolygon s) : Nat) : Int) := rfl
      rw [hsz, h]
      rfl

/-! ## Header round-trip -/

theorem fromI32_toI32 (st : ShapeType) : ShapeType.fromI32 st.toI32 = some st := by
  cases st <;> rfl

theorem header_roundtrip (h : Header) (rest : List Tok) :
    Header.read_from (h.write_to ++ rest) = .ok (h, rest) := by
  unfold Header.write_to Header.read_from
  simp only [List.cons_append, readI32BE_cons, except_bind_ok]
  rw [if_neg (fun hne => hne rfl)]
  rw [List.append_assoc, readBytes_replicate]
  simp only [except_bind_ok, List.cons_append, readI32BE_cons, readI32LE_cons]
  unfold ShapeType.read_from
  simp only [readI32LE_cons, except_bind_ok, fromI32_toI32]
  simp only [readF64_cons, except_bind_ok]
  rfl

/-! ## Geo-polygon conversion lemmas -/

theorem ring_ite_length (c : Bool) (l : List Point) :
    (if c then l.reverse else l).length = l.length := by
  cases c <;> simp

theorem geo_fold (ints : List (List (F × F))) (pts : List Point) (ps : List Int) :
    (ints.foldl polygon_from_geo_step (pts, ps)).2 =
      ps ++ geo_parts_tail pts.length ints ∧
    (ints.foldl polygon_from_geo_step (pts, ps)).1.length =
      pts.length + (ints.map List.length).sum := by
  induction ints generalizing pts ps with
  | nil => simp [geo_parts_tail]
  | cons ring ints ih =>
      simp only [List.foldl_cons]
      rw [show polygon_from_geo_step (pts, ps) ring =
        (pts ++ (if is_outer_ring (ring.map pointOfCoord) then
            (ring.map pointOfCoord).reverse else ring.map pointOfCoord),
          ps ++ [i32_of_usize (pts.length - 1)]) from rfl]
      obtain ⟨h1, h2⟩ := ih
        (pts ++ if is_outer_ring (ring.map pointOfCoord) then
          (ring.map pointOfCoord).reverse else ring.map pointOfCoord)
        (ps ++ [i32_of_usize (pts.length - 1)])
      constructor
      · rw [h1]
        simp only [List.length_append, ring_ite_length, List.length_map]
        simp [geo_parts_tail]
      · rw [h2]
        simp only [List.length_append, ring_ite_length, List.length_map]
        simp [List.map_cons, List.sum_cons]
        omega

theorem mk_points_z_nom_no_m (cs : List (F × F)) (zs : List F) :
    ∀ p ∈ mk_points_z_nom cs zs, p.m = NO_DATA := by
  induction cs generalizing zs with
  | nil => cases zs <;> simp [mk_points_z_nom]
  | cons c cs ih =>
      cases zs with
      | nil => simp [mk_points_z_nom]
      | cons z zs =>
          simp only [mk_points_z_nom, List.mem_cons]
          rintro p (rfl | hp)
          · rfl
          · exact ih zs p hp

/-! # Claims -/

/-- C1: for every M- or Z-variant multipart decode, the trailing M
block is read exactly when record_size equals the with-M expected size
for the parsed counts: given the with-M size the decoder consumes the
m-range and the m values and stores the measures; given the without-M
size it stops before the M block (an arbitrary tail is left unread) and
every point of the returned shape has m = NO_DATA. -/
theorem c1_optional_trailing_m (b : BBox) (parts : List Int) (cs : List (F × F))
    (zr mr : F × F) (zs ms : List F) (rest : List Tok)
    (hp : parts.length < 2 ^ 20) (hc : cs.length < 2 ^ 20)
    (hz : zs.length = cs.length) (hm : ms.length = cs.length) :
    (PolylineM.read_shape_content
        (i32_of_usize (PolylineM.size_of_record (cs.length : Int) (parts.length : Int) true))
        (b.write_to ++ [Tok.i32le (parts.length : Int), Tok.i32le (cs.length : Int)] ++
          write_parts parts ++ write_xys cs ++ write_range mr ++ write_f64s ms ++ rest) =
      .ok (⟨b, mk_points_m cs ms, parts⟩, rest)) ∧
    (PolylineM.read_shape_content
        (i32_of_usize (PolylineM.size_of_record (cs.length : Int) (parts.length : Int) false))
        (b.write_to ++ [Tok.i32le (parts.length : Int), Tok.i32le (cs.length : Int)] ++
          write_parts parts ++ write_xys cs ++ rest) =
      .ok (⟨b, cs.map (fun c => PointM.mk c.1 c.2 NO_DATA), parts⟩, rest)) ∧
    (∀ p ∈ cs.map (fun c => PointM.mk c.1 c.2 NO_DATA), p.m = NO_DATA) ∧
    (PolylineZ.read_shape_content
        (i32_of_usize (PolylineZ.size_of_record (cs.length : Int) (parts.length : Int) true))
        (b.write_to ++ [Tok.i32le (parts.length : Int), Tok.i32le (cs.length : Int)] ++
          write_parts parts ++ write_xys cs ++
          write_range zr ++ write_f64s zs ++ write_range mr ++ write_f64s ms ++ rest) =
      .ok (⟨b, mk_points_z cs zs ms, parts⟩, rest)) ∧
    (PolylineZ.read_shape_content
        (i32_of_usize (PolylineZ.size_of_record (cs.length : Int) (parts.length : Int) false))
        (b.write_to ++ [Tok.i32le (parts.length : Int), Tok.i32le (cs.length : Int)] ++
          write_parts parts ++ write_xys cs ++
          write_range zr ++ write_f64s zs ++ rest) =
      .ok (⟨b, mk_points_z_nom cs zs, parts⟩, rest)) ∧
    (∀ p ∈ mk_points_z_nom cs zs, p.m = NO_DATA) := by
  refine ⟨?_, ?_, ?_, ?_, ?_, ?_⟩
  · rw [size_of_record_m_true cs.length parts.length (by omega) (by omega),
      i32_of_usize_small _ (by omega)]
    exact polyline_m_read_with b parts cs mr ms rest hp hc hm
  · rw [size_of_record_m_false cs.length parts.length (by omega) (by omega),
      i32_of_usize_small _ (by omega)]
    exact polyline_m_read_without b parts cs rest hp hc
  · intro p hpmem
    simp only [List.mem_map] at hpmem
    obtain ⟨c, _, rfl⟩ := hpmem
    rfl
  · rw [size_of_record_z_true cs.length parts.length (by omega) (by omega),
      i32_of_usize_small _ (by omega)]
    exact polyline_z_read_with b parts cs zr zs mr ms rest hp hc hz hm
  · rw [size_of_record_z_false cs.length parts.length (by omega) (by omega),
      i32_of_usize_small _ (by omega)]
    exact polyline_z_read_without b parts cs zr zs rest hp hc hz
  · exact mk_points_z_nom_no_m cs zs

/-- C1 witness: the optional-M behaviour at a concrete one-point,
one-part record. -/
theorem c1_optional_trailing_m_witness :
    (PolylineM.read_shape_content
        (i32_of_usize (PolylineM.size_of_record 1 1 true))
        ((⟨0, 0, 0, 0⟩ : BBox).write_to ++ [Tok.i32le 1, Tok.i32le 1] ++
          write_parts [0] ++ write_xys [(1, 2)] ++ write_range (7, 8) ++ write_f64s [4] ++ []) =
      .ok (⟨⟨0, 0, 0, 0⟩, [⟨1, 2, 4⟩], [0]⟩, [])) ∧
    (PolylineM.read_shape_content
        (i32_of_usize (PolylineM.size_of_record 1 1 false))
        ((⟨0, 0, 0, 0⟩ : BBox).write_to ++ [Tok.i32le 1, Tok.i32le 1] ++
          write_parts [0] ++ write_xys [(1, 2)] ++ []) =
      .ok (⟨⟨0, 0, 0, 0⟩, [⟨1, 2, NO_DATA⟩], [0]⟩, [])) := by
  have h := c1_optional_trailing_m ⟨0, 0, 0, 0⟩ [0] [(1, 2)] (5, 6) (7, 8) [3] [4] []
    (by decide) (by decide) (by decide) (by decide)
  exact ⟨h.1, h.2.1⟩

/-- C3: a record size matching no expected size for the parsed counts
is rejected with the invalid-record-size error: exactly one expected
size for the plain decoder, two (with-M and without-M) for the M and Z
decoders. -/
theorem c3_invalid_record_size (b : BBox) (np npts : Int) (parts : List Int)
    (rest : List Tok) (rs : Int) (hlen : parts.length = np.toNat)
    (hP : rs ≠ i32_of_usize (Polyline.size_of_record npts np))
    (hM1 : rs ≠ i32_of_usize (PolylineM.size_of_record npts np true))
    (hM2 : rs ≠ i32_of_usize (PolylineM.size_of_record npts np false))
    (hZ1 : rs ≠ i32_of_usize (PolylineZ.size_of_record npts np true))
    (hZ2 : rs ≠ i32_of_usize (PolylineZ.size_of_record npts np false)) :
    (Polyline.read_shape_content rs
        (b.write_to ++ Tok.i32le np :: Tok.i32le npts :: rest) =
      .error .invalidShapeRecordSize) ∧
    (PolylineM.read_shape_content rs
        (b.write_to ++ Tok.i32le np :: Tok.i32le npts :: (write_parts parts ++ rest)) =
      .error .invalidShapeRecordSize) ∧
    (PolylineZ.read_shape_content rs
        (b.write_to ++ Tok.i32le np :: Tok.i32le npts :: rest) =
      .error .invalidShapeRecordSize) :=
  ⟨polyline_read_bad_size b np npts rest rs hP,
   polyline_m_read_bad_size b np npts parts rest rs hlen hM1 hM2,
   polyline_z_read_bad_size b np npts rest rs hZ1 hZ2⟩

/-- C3 witness: record size 0 is rejected by all three decoders at a
record with zero parts and zero points. -/
theorem c3_invalid_record_size_witness :
    (Polyline.read_shape_content 0
        ((⟨0, 0, 0, 0⟩ : BBox).write_to ++ Tok.i32le 0 :: Tok.i32le 0 :: []) =
      .error .invalidShapeRecordSize) ∧
    (PolylineM.read_shape_content 0
        ((⟨0, 0, 0, 0⟩ : BBox).write_to ++ Tok.i32le 0 :: Tok.i32le 0 :: (write_parts [] ++ [])) =
      .error .invalidShapeRecordSize) ∧
    (PolylineZ.read_shape_content 0
        ((⟨0, 0, 0, 0⟩ : BBox).write_to ++ Tok.i32le 0 :: Tok.i32le 0 :: []) =
      .error .invalidShapeRecordSize) :=
  c3_invalid_record_size ⟨0, 0, 0, 0⟩ 0 0 [] [] 0 (by decide)
    (by decide) (by decide) (by decide) (by decide) (by decide)

/-- C4 counterexample: a record whose parts array is [7] with a single
point decodes successfully, yet [7] violates the parts-array invariant
(its entry is not below the number of points), so not every
successfully decoded multipart shape satisfies the invariant. -/
theorem c4_counterexample :
    Polyline.read_shape_content 60
        [Tok.f64le 0, Tok.f64le 0, Tok.f64le 0, Tok.f64le 0, Tok.i32le 1, Tok.i32le 1,
         Tok.i32le 7, Tok.f64le 0, Tok.f64le 0] =
      .ok (⟨⟨0, 0, 0, 0⟩, [⟨0, 0⟩], [7]⟩, []) ∧
    is_parts_array_valid [7] 1 = false := by
  refine ⟨?_, by decide⟩
  decide

/-- C4 amended: the decoders perform no validation of the parts array;
a successfully decoded multipart shape's parts are exactly the i32
values parsed from the wire, whether or not they satisfy
is_parts_array_valid (the invariant is checked only on encode). -/
theorem c4_parts_unvalidated (b : BBox) (parts : List Int) (cs : List (F × F))
    (rest : List Tok) (hp : parts.length < 2 ^ 20) (hc : cs.length < 2 ^ 20) :
    Polyline.read_shape_content ((40 + 4 * parts.length + 16 * cs.length : Nat) : Int)
        (b.write_to ++ [Tok.i32le (parts.length : Int), Tok.i32le (cs.length : Int)] ++
          write_parts parts ++ write_xys cs ++ rest) =
      .ok (⟨b, cs.map (fun c => Point.mk c.1 c.2), parts⟩, rest) :=
  polyline_read_ok b parts cs rest hp hc

/-- C4 amended witness: the invalid parts array [7] is returned as-is. -/
theorem c4_parts_unvalidated_witness :
    Polyline.read_shape_content 60
        ((⟨0, 0, 0, 0⟩ : BBox).write_to ++ [Tok.i32le 1, Tok.i32le 1] ++
          write_parts [7] ++ write_xys [(0, 0)] ++ []) =
      .ok (⟨⟨0, 0, 0, 0⟩, [⟨0, 0⟩], [7]⟩, []) :=
  c4_parts_unvalidated ⟨0, 0, 0, 0⟩ [7] [(0, 0)] [] (by decide) (by decide)

/-- C6 counterexample: the Z layout record-size function at 10 points,
3 parts, M block present does not give the 236 bytes the spec asserts. -/
theorem c6_counterexample : ¬ (PolylineZ.size_of_record 10 3 true = 236) := by
  decide

/-- C6 amended: the Z layout record size at 10 points, 3 parts with the
M block present is 404 bytes (32 bbox + 8 counts + 12 parts + 160 xy +
16 z-range + 80 z + 16 m-range + 80 m). -/
theorem c6_size_of_record_z : PolylineZ.size_of_record 10 3 true = 404 := by
  decide

/-- C7: writing any header and reading the produced bytes back yields
the identical header, every field included, with the stream advanced
exactly past the header. -/
theorem c7_header_roundtrip (h : Header) (rest : List Tok) :
    Header.read_from (h.write_to ++ rest) = .ok (h, rest) :=
  header_roundtrip h rest

/-- C2: for each polyline and polygon variant, decoding the bytes
produced by encoding a valid instance, with record_size taken from
size_in_bytes, returns a value equal to the instance (exact equality:
the writer always emits the M block, so every m value, NO_DATA
included, is written and read back). -/
theorem c2_encode_decode (sp : Polyline) (sm : PolylineM) (sz : PolylineZ)
    (gp : Polygon) (gm : PolygonM) (gz : PolygonZ)
    (hvp : is_parts_array_valid sp.parts sp.points.length = true)
    (hpp : sp.parts.length < 2 ^ 20) (hcp : sp.points.length < 2 ^ 20)
    (hvm : is_parts_array_valid sm.parts sm.points.length = true)
    (hpm : sm.parts.length < 2 ^ 20) (hcm : sm.points.length < 2 ^ 20)
    (hvz : is_parts_array_valid sz.parts sz.points.length = true)
    (hpz : sz.parts.length < 2 ^ 20) (hcz : sz.points.length < 2 ^ 20)
    (hvgp : is_parts_array_valid gp.parts gp.points.length = true)
    (hpgp : gp.parts.length < 2 ^ 20) (hcgp : gp.points.length < 2 ^ 20)
    (hvgm : is_parts_array_valid gm.parts gm.points.length = true)
    (hpgm : gm.parts.length < 2 ^ 20) (hcgm : gm.points.length < 2 ^ 20)
    (hvgz : is_parts_array_valid gz.parts gz.points.length = true)
    (hpgz : gz.parts.length < 2 ^ 20) (hcgz : gz.points.length < 2 ^ 20) :
    (Polyline.write_to sp >>=
      Polyline.read_shape_content ((sp.size_in_bytes : Nat) : Int)) = .ok (sp, []) ∧
    (PolylineM.write_to sm >>=
      PolylineM.read_shape_content ((sm.size_in_bytes : Nat) : Int)) = .ok (sm, []) ∧
    (PolylineZ.write_to sz >>=
      PolylineZ.read_shape_content ((sz.size_in_bytes : Nat) : Int)) = .ok (sz, []) ∧
    (Polygon.write_to gp >>=
      Polygon.read_shape_content ((gp.size_in_bytes : Nat) : Int)) = .ok (gp, []) ∧
    (PolygonM.write_to gm >>=
      PolygonM.read_shape_content ((gm.size_in_bytes : Nat) : Int)) = .ok (gm, []) ∧
    (PolygonZ.write_to gz >>=
      PolygonZ.read_shape_content ((gz.size_in_bytes : Nat) : Int)) = .ok (gz, []) :=
  ⟨polyline_roundtrip sp hvp hpp hcp,
   polyline_m_roundtrip sm hvm hpm hcm,
   polyline_z_roundtrip sz hvz hpz hcz,
   polygon_roundtrip gp hvgp hpgp hcgp,
   polygon_m_roundtrip gm hvgm hpgm hcgm,
   polygon_z_roundtrip gz hvgz hpgz hcgz⟩

/-- C2 witness: the round trip at concrete two-point shapes, one per
variant, with measures both set and unset. -/
theorem c2_encode_decode_witness :
    (Polyline.write_to ⟨⟨1, 1, 2, 2⟩, [⟨1, 1⟩, ⟨2, 2⟩], [0]⟩ >>=
      Polyline.read_shape_content 76) =
      .ok (⟨⟨1, 1, 2, 2⟩, [⟨1, 1⟩, ⟨2, 2⟩], [0]⟩, []) ∧
    (PolylineM.write_to ⟨⟨1, 1, 2, 2⟩, [⟨1, 1, 5⟩, ⟨2, 2, NO_DATA⟩], [0]⟩ >>=
      PolylineM.read_shape_content 108) =
      .ok (⟨⟨1, 1, 2, 2⟩, [⟨1, 1, 5⟩, ⟨2, 2, NO_DATA⟩], [0]⟩, []) ∧
    (PolylineZ.write_to ⟨⟨1, 1, 2, 2⟩, [⟨1, 1, 7, 5⟩, ⟨2, 2, 3, NO_DATA⟩], [0]⟩ >>=
      PolylineZ.read_shape_content 140) =
      .ok (⟨⟨1, 1, 2, 2⟩, [⟨1, 1, 7, 5⟩, ⟨2, 2, 3, NO_DATA⟩], [0]⟩, []) ∧
    (Polygon.write_to ⟨⟨1, 1, 2, 2⟩, [⟨1, 1⟩, ⟨2, 2⟩], [0]⟩ >>=
      Polygon.read_shape_content 76) =
      .ok (⟨⟨1, 1, 2, 2⟩, [⟨1, 1⟩, ⟨2, 2⟩], [0]⟩, []) ∧
    (PolygonM.write_to ⟨⟨1, 1, 2, 2⟩, [⟨1, 1, 5⟩, ⟨2, 2, NO_DATA⟩], [0]⟩ >>=
      PolygonM.read_shape_content 108) =
      .ok (⟨⟨1, 1, 2, 2⟩, [⟨1, 1, 5⟩, ⟨2, 2, NO_DATA⟩], [0]⟩, []) ∧
    (PolygonZ.write_to ⟨⟨1, 1, 2, 2⟩, [⟨1, 1, 7, 5⟩, ⟨2, 2, 3, NO_DATA⟩], [0]⟩ >>=
      PolygonZ.read_shape_content 140) =
      .ok (⟨⟨1, 1, 2, 2⟩, [⟨1, 1, 7, 5⟩, ⟨2, 2, 3, NO_DATA⟩], [0]⟩, []) :=
  c2_encode_decode
    ⟨⟨1, 1, 2, 2⟩, [⟨1, 1⟩, ⟨2, 2⟩], [0]⟩
    ⟨⟨1, 1, 2, 2⟩, [⟨1, 1, 5⟩, ⟨2, 2, NO_DATA⟩], [0]⟩
    ⟨⟨1, 1, 2, 2⟩, [⟨1, 1, 7, 5⟩, ⟨2, 2, 3, NO_DATA⟩], [0]⟩
    ⟨⟨1, 1, 2, 2⟩, [⟨1, 1⟩, ⟨2, 2⟩], [0]⟩
    ⟨⟨1, 1, 2, 2⟩, [⟨1, 1, 5⟩, ⟨2, 2, NO_DATA⟩], [0]⟩
    ⟨⟨1, 1, 2, 2⟩, [⟨1, 1, 7, 5⟩, ⟨2, 2, 3, NO_DATA⟩], [0]⟩
    (by decide) (by decide) (by decide) (by decide) (by decide) (by decide)
    (by decide) (by decide) (by decide) (by decide) (by decide) (by decide)
    (by decide) (by decide) (by decide) (by decide) (by decide) (by decide)

/-- C5 counterexample: the writer emits the stored bbox field verbatim;
a polyline whose stored bbox is (5,5)-(6,6) but whose single point is
(0,0) is written with bbox (5,5)-(6,6), which is not the bbox computed
from its point sequence, so the emitted bbox is taken from a stored
field rather than recomputed. -/
theorem c5_counterexample :
    (match Polyline.write_to ⟨⟨5, 5, 6, 6⟩, [⟨0, 0⟩], [0]⟩ with
      | .ok ts => ts.take 4
      | .error _ => []) ≠
      (BBox.from_points ([⟨0, 0⟩] : List Point)).write_to := by
  decide

/-- C5 amended: on encode the z-range and m-range are recomputed from
the point sequence (calc_z_range and calc_m_range), but the bounding
box is the stored bbox field of the value being written, emitted as the
first four values of the record. -/
theorem c5_ranges_recomputed_bbox_stored (sp : Polyline) (sm : PolylineM) (sz : PolylineZ)
    (hvp : is_parts_array_valid sp.parts sp.points.length = true)
    (hpp : sp.parts.length < 2 ^ 20) (hcp : sp.points.length < 2 ^ 20)
    (hvm : is_parts_array_valid sm.parts sm.points.length = true)
    (hpm : sm.parts.length < 2 ^ 20) (hcm : sm.points.length < 2 ^ 20)
    (hvz : is_parts_array_valid sz.parts sz.points.length = true)
    (hpz : sz.parts.length < 2 ^ 20) (hcz : sz.points.length < 2 ^ 20) :
    Polyline.write_to sp = .ok (sp.bbox.write_to ++
      [Tok.i32le (sp.parts.length : Int), Tok.i32le (sp.points.length : Int)] ++
      write_parts sp.parts ++ write_points_p sp.points) ∧
    PolylineM.write_to sm = .ok (sm.bbox.write_to ++
      [Tok.i32le (sm.parts.length : Int), Tok.i32le (sm.points.length : Int)] ++
      write_parts sm.parts ++ write_points_m sm.points ++
      write_range (calc_m_range_m sm.points) ++ write_f64s (sm.points.map PointM.m)) ∧
    PolylineZ.write_to sz = .ok (sz.bbox.write_to ++
      [Tok.i32le (sz.parts.length : Int), Tok.i32le (sz.points.length : Int)] ++
      write_parts sz.parts ++ write_points_z sz.points ++
      write_range (calc_z_range sz.points) ++ write_f64s (sz.points.map PointZ.z) ++
      write_range (calc_m_range_z sz.points) ++ write_f64s (sz.points.map PointZ.m)) :=
  ⟨polyline_write_ok sp hvp hpp hcp,
   polyline_m_write_ok sm hvm hpm hcm,
   polyline_z_write_ok sz hvz hpz hcz⟩

/-- C5 amended witness: the emitted stream at a concrete M shape whose
stored bbox disagrees with its points; the bbox written is the stored
one and the m-range written is computed from the points. -/
theorem c5_ranges_recomputed_bbox_stored_witness :
    PolylineM.write_to ⟨⟨5, 5, 6, 6⟩, [⟨0, 0, 3⟩], [0]⟩ =
      .ok ((⟨5, 5, 6, 6⟩ : BBox).write_to ++
        [Tok.i32le 1, Tok.i32le 1] ++
        write_parts [0] ++ write_points_m [⟨0, 0, 3⟩] ++
        write_range (calc_m_range_m [⟨0, 0, 3⟩]) ++ write_f64s [3]) :=
  (c5_ranges_recomputed_bbox_stored
    ⟨⟨0, 0, 0, 0⟩, [⟨0, 0⟩], [0]⟩ ⟨⟨5, 5, 6, 6⟩, [⟨0, 0, 3⟩], [0]⟩
    ⟨⟨0, 0, 0, 0⟩, [⟨0, 0, 0, 0⟩], [0]⟩
    (by decide) (by decide) (by decide) (by decide) (by decide) (by decide)
    (by decide) (by decide) (by decide)).2.1

/-- C8: the multipart encoders verify the parts-array invariant before
any output: when it fails they return the malformed-shape error and
emit nothing, and they produce output exactly when the invariant
holds. -/
theorem c8_write_requires_valid_parts (sp : Polyline) (sm : PolylineM) (sz : PolylineZ) :
    (is_parts_array_valid sp.parts sp.points.length = false →
      Polyline.write_to sp = .error .malformedShape) ∧
    (is_parts_array_valid sp.parts sp.points.length = true →
      ∃ ts, Polyline.write_to sp = .ok ts) ∧
    (is_parts_array_valid sm.parts sm.points.length = false →
      PolylineM.write_to sm = .error .malformedShape) ∧
    (is_parts_array_valid sm.parts sm.points.length = true →
      ∃ ts, PolylineM.write_to sm = .ok ts) ∧
    (is_parts_array_valid sz.parts sz.points.length = false →
      PolylineZ.write_to sz = .error .malformedShape) ∧
    (is_parts_array_valid sz.parts sz.points.length = true →
      ∃ ts, PolylineZ.write_to sz = .ok ts) := by
  refine ⟨fun hb => ?_, fun hg => ?_, fun hb => ?_, fun hg => ?_, fun hb => ?_, fun hg => ?_⟩
  · unfold Polyline.write_to
    rw [if_pos (by simp [hb])]
  · unfold Polyline.write_to
    rw [if_neg (by simp [hg])]
    exact ⟨_, rfl⟩
  · unfold PolylineM.write_to
    rw [if_pos (by simp [hb])]
  · unfold PolylineM.write_to
    rw [if_neg (by simp [hg])]
    exact ⟨_, rfl⟩
  · unfold PolylineZ.write_to
    rw [if_pos (by simp [hb])]
  · unfold PolylineZ.write_to
    rw [if_neg (by simp [hg])]
    exact ⟨_, rfl⟩

/-- C8 witness: a shape whose parts array is [1] (first entry not 0) is
rejected by the M encoder, and a shape with parts [0] is written. -/
theorem c8_write_requires_valid_parts_witness :
    PolylineM.write_to ⟨⟨0, 0, 0, 0⟩, [⟨0, 0, 0⟩], [1]⟩ = .error .malformedShape ∧
    (∃ ts, Polyline.write_to ⟨⟨0, 0, 0, 0⟩, [⟨0, 0⟩], [0]⟩ = .ok ts) :=
  ⟨(c8_write_requires_valid_parts ⟨⟨0, 0, 0, 0⟩, [⟨0, 0⟩], [0]⟩
      ⟨⟨0, 0, 0, 0⟩, [⟨0, 0, 0⟩], [1]⟩ ⟨⟨0, 0, 0, 0⟩, [⟨0, 0, 0, 0⟩], [0]⟩).2.2.1 (by decide),
   (c8_write_requires_valid_parts ⟨⟨0, 0, 0, 0⟩, [⟨0, 0⟩], [0]⟩
      ⟨⟨0, 0, 0, 0⟩, [⟨0, 0, 0⟩], [1]⟩ ⟨⟨0, 0, 0, 0⟩, [⟨0, 0, 0, 0⟩], [0]⟩).2.1 (by decide)⟩

/-- C9: in the conversion from a simple polygon with holes, the part
index recorded for each interior ring is one less than the number of
points accumulated when the ring is appended (the parts array equals
the accumulate-minus-one sequence, and differs from the sequence that
would use the accumulated length itself). -/
theorem c9_interior_part_index (ext : List (F × F)) (ints : List (List (F × F)))
    (hne : ext ≠ []) (hs : ext.length < 2 ^ 31) :
    (polygon_from_geo ext ints).parts = 0 :: geo_parts_tail ext.length ints ∧
    (ints ≠ [] →
      (polygon_from_geo ext ints).parts ≠ 0 :: geo_parts_tail_spec ext.length ints) := by
  have hlen0 : ¬ (ext.length = 0) := fun h0 => hne (List.length_eq_zero.mp h0)
  have hmain : (polygon_from_geo ext ints).parts = 0 :: geo_parts_tail ext.length ints := by
    unfold polygon_from_geo
    rw [if_neg hlen0]
    simp only [GenericPolygon.new, GenericPolyline.new, polygonOfPolyline]
    rw [(geo_fold ints _ [0]).1]
    have houter : (if ¬ is_outer_ring (ext.map pointOfCoord) then
        (ext.map pointOfCoord).reverse else ext.map pointOfCoord).length = ext.length := by
      cases h : is_outer_ring (ext.map pointOfCoord) <;> simp [h]
    rw [houter]
    simp
  refine ⟨hmain, fun hi heq => ?_⟩
  rw [hmain] at heq
  cases ints with
  | nil => exact hi rfl
  | cons ring ints' =>
      simp only [geo_parts_tail, geo_parts_tail_spec] at heq
      injection heq with _ heq2
      injection heq2 with hh _
      rw [i32_of_usize_small _ (by omega), i32_of_usize_small _ hs] at hh
      have hlen1 : 0 < ext.length := List.length_pos.mpr hne
      omega

/-- C9 witness: a square exterior with one triangular hole; the hole's
part index is 4 (five exterior points minus one), not 5. -/
theorem c9_interior_part_index_witness :
    (polygon_from_geo [(0, 0), (1, 0), (1, 1), (0, 1), (0, 0)]
        [[(2, 2), (2, 3), (3, 3), (2, 2)]]).parts =
      0 :: geo_parts_tail 5 [[(2, 2), (2, 3), (3, 3), (2, 2)]] ∧
    (polygon_from_geo [(0, 0), (1, 0), (1, 1), (0, 1), (0, 0)]
        [[(2, 2), (2, 3), (3, 3), (2, 2)]]).parts ≠
      0 :: geo_parts_tail_spec 5 [[(2, 2), (2, 3), (3, 3), (2, 2)]] := by
  have h := c9_interior_part_index [(0, 0), (1, 0), (1, 1), (0, 1), (0, 0)]
    [[(2, 2), (2, 3), (3, 3), (2, 2)]] (by decide) (by decide)
  exact ⟨h.1, h.2 (by decide)⟩

/-- C10: the decoded value of an M- or Z-variant record does not depend
on the wire z-range and m-range fields: two payloads identical except
in those range fields decode to equal results, the ranges being read
and discarded. -/
theorem c10_ranges_not_observable (b : BBox) (parts : List Int) (cs : List (F × F))
    (zr1 zr2 mr1 mr2 : F × F) (zs ms : List F) (rest : List Tok)
    (hp : parts.length < 2 ^ 20) (hc : cs.length < 2 ^ 20)
    (hz : zs.length = cs.length) (hm : ms.length = cs.length) :
    (PolylineM.read_shape_content ((56 + 4 * parts.length + 24 * cs.length : Nat) : Int)
        (b.write_to ++ [Tok.i32le (parts.length : Int), Tok.i32le (cs.length : Int)] ++
          write_parts parts ++ write_xys cs ++ write_range mr1 ++ write_f64s ms ++ rest) =
      PolylineM.read_shape_content ((56 + 4 * parts.length + 24 * cs.length : Nat) : Int)
        (b.write_to ++ [Tok.i32le (parts.length : Int), Tok.i32le (cs.length : Int)] ++
          write_parts parts ++ write_xys cs ++ write_range mr2 ++ write_f64s ms ++ rest)) ∧
    (PolylineZ.read_shape_content ((72 + 4 * parts.length + 32 * cs.length : Nat) : Int)
        (b.write_to ++ [Tok.i32le (parts.length : Int), Tok.i32le (cs.length : Int)] ++
          write_parts parts ++ write_xys cs ++
          write_range zr1 ++ write_f64s zs ++ write_range mr1 ++ write_f64s ms ++ rest) =
      PolylineZ.read_shape_content ((72 + 4 * parts.length + 32 * cs.length : Nat) : Int)
        (b.write_to ++ [Tok.i32le (parts.length : Int), Tok.i32le (cs.length : Int)] ++
          write_parts parts ++ write_xys cs ++
          write_range zr2 ++ write_f64s zs ++ write_range mr2 ++ write_f64s ms ++ rest)) ∧
    (PolylineZ.read_shape_content ((56 + 4 * parts.length + 24 * cs.length : Nat) : Int)
        (b.write_to ++ [Tok.i32le (parts.length : Int), Tok.i32le (cs.length : Int)] ++
          write_parts parts ++ write_xys cs ++
          write_range zr1 ++ write_f64s zs ++ rest) =
      PolylineZ.read_shape_content ((56 + 4 * parts.length + 24 * cs.length : Nat) : Int)
        (b.write_to ++ [Tok.i32le (parts.length : Int), Tok.i32le (cs.length : Int)] ++
          write_parts parts ++ write_xys cs ++
          write_range zr2 ++ write_f64s zs ++ rest)) := by
  refine ⟨?_, ?_, ?_⟩
  · rw [polyline_m_read_with b parts cs mr1 ms rest hp hc hm,
      polyline_m_read_with b parts cs mr2 ms rest hp hc hm]
  · rw [polyline_z_read_with b parts cs zr1 zs mr1 ms rest hp hc hz hm,
      polyline_z_read_with b parts cs zr2 zs mr2 ms rest hp hc hz hm]
  · rw [polyline_z_read_without b parts cs zr1 zs rest hp hc hz,
      polyline_z_read_without b parts cs zr2 zs rest hp hc hz]

/-- C10 witness: two concrete one-point records differing only in their
range fields decode identically. -/
theorem c10_ranges_not_observable_witness :
    (PolylineM.read_shape_content 84
        ((⟨0, 0, 0, 0⟩ : BBox).write_to ++ [Tok.i32le 1, Tok.i32le 1] ++
          write_parts [0] ++ write_xys [(1, 2)] ++ write_range (9, 9) ++ write_f64s [4] ++ []) =
      PolylineM.read_shape_content 84
        ((⟨0, 0, 0, 0⟩ : BBox).write_to ++ [Tok.i32le 1, Tok.i32le 1] ++
          write_parts [0] ++ write_xys [(1, 2)] ++ write_range (11, 13) ++ write_f64s [4] ++ [])) := by
  exact (c10_ranges_not_observable ⟨0, 0, 0, 0⟩ [0] [(1, 2)] (0, 0) (0, 0) (9, 9) (11, 13)
    [3] [4] [] (by decide) (by decide) (by decide) (by decide)).1

end Shp
